import Mathlib

/-!
Verification of the duratii orchestration gateway core.

Shallow embedding of the Rust source:
- `src/models/client.rs`   : `ClientStatus`, `ClientMetadata`, `Client`
- `src/models/token.rs`    : `parse_token`, token formatting, `hash_token`
- `src/durable_objects/user_hub.rs`    : the per-user Hub state and handlers
- `src/durable_objects/pending_hub.rs` : the pending-client Hub

WebSockets are identified by natural numbers; the SQLite `clients` table is
an association list keyed by `client_id`; JSON payloads are a small inductive
`Json` type; randomness (ids, tokens) and wall-clock time enter the handlers
as explicit parameters; outbound fetches and the D1 token store are oracles
passed to the handler.  Each handler returns the new state together with the
list of frames it sent (and sockets it closed), in emission order.
-/

namespace Duratii

/-! ## Data model (src/models/client.rs) -/

/-- `ClientStatus` from `src/models/client.rs`: `idle | active | busy | disconnected`. -/
inductive ClientStatus where
  | idle
  | active
  | busy
  | disconnected
deriving DecidableEq, Repr

/-- `Display` for `ClientStatus` (lowercase on the wire). -/
def ClientStatus.toWire : ClientStatus → String
  | .idle => "idle"
  | .active => "active"
  | .busy => "busy"
  | .disconnected => "disconnected"

/-- `ClientMetadata` from `src/models/client.rs`. -/
structure ClientMetadata where
  hostname : String
  project : String
  status : ClientStatus
  last_activity : Option String
  callback_url : Option String
deriving DecidableEq, Repr

/-- serde deserialization of `ClientMetadata`: the `status` field carries
`#[serde(default)]`, so a frame that omits it decodes to `ClientStatus.idle`. -/
def decodeMetadata (hostname project : String) (status : Option ClientStatus)
    (last_activity : Option String) (callback_url : Option String) : ClientMetadata :=
  { hostname := hostname
    project := project
    status := status.getD .idle
    last_activity := last_activity
    callback_url := callback_url }

/-- `Client` from `src/models/client.rs`. -/
structure Client where
  id : String
  user_id : String
  metadata : ClientMetadata
  connected_at : String
  last_seen : String
deriving DecidableEq, Repr

/-- `Client::new`: both timestamps are the current time, passed explicitly. -/
def Client.new (id user_id : String) (metadata : ClientMetadata) (now : String) : Client :=
  { id := id, user_id := user_id, metadata := metadata, connected_at := now, last_seen := now }

/-- `Client::update_last_seen`. -/
def Client.updateLastSeen (c : Client) (now : String) : Client :=
  { c with last_seen := now }

/-- `Client::update_status`: sets the status and stamps `last_activity`. -/
def Client.updateStatus (c : Client) (status : ClientStatus) (now : String) : Client :=
  { c with metadata := { c.metadata with status := status, last_activity := some now } }

/-! ## Tokens (src/models/token.rs) -/

/-- `format!("ao_{}_{}", id, raw_token)` from `ClientToken::new` /
`PendingHub::handle_claim`, over strings as character lists. -/
def formatToken (id secret : List Char) : List Char :=
  'a' :: 'o' :: '_' :: id ++ '_' :: secret

/-- `splitn(2, '_')` when it yields two parts: split at the first underscore;
`none` when the string holds no underscore (then `parts.len() != 2`). -/
def splitFirstUnderscore : List Char → Option (List Char × List Char)
  | [] => none
  | c :: cs =>
      if c = '_' then some ([], cs)
      else
        match splitFirstUnderscore cs with
        | some (a, b) => some (c :: a, b)
        | none => none

/-- `parse_token` from `src/models/token.rs`: require the `ao_` prefix, drop
it, and split the remainder at the first underscore into `(id, raw_token)`. -/
def parseToken (full : List Char) : Option (List Char × List Char) :=
  match full with
  | 'a' :: 'o' :: '_' :: rest => splitFirstUnderscore rest
  | _ => none

/-- One lowercase hex digit, as produced by `format!("{:02x}", b)`. -/
def hexDigit (n : Nat) : Char :=
  if n < 10 then Char.ofNat (48 + n) else Char.ofNat (87 + n)

/-- `hex::encode` / `format!("{:02x}", b)` over a byte list: two lowercase hex
digits per byte (bytes are taken mod 256, the `u8` range). -/
def hexEncode (bytes : List Nat) : List Char :=
  bytes.flatMap fun b => [hexDigit (b % 256 / 16), hexDigit (b % 256 % 16)]

/-- One iteration of the `hash_token` loop from `src/models/token.rs`:
`hash[i % 32] ^= byte; hash[(i + 1) % 32] = hash[(i + 1) % 32].wrapping_add(*byte)`. -/
def hashStep (hash : List Nat) (i b : Nat) : List Nat :=
  let h1 := hash.set (i % 32) (Nat.xor (hash.getD (i % 32) 0) b)
  h1.set ((i + 1) % 32) ((h1.getD ((i + 1) % 32) 0 + b) % 256)

/-- `hash_token` over the token's bytes: XOR/add into a 32-byte accumulator. -/
def hashBytes (bytes : List Nat) : List Nat :=
  (bytes.foldl (fun p b => (hashStep p.1 p.2 b, p.2 + 1)) (List.replicate 32 0, 0)).1

/-- `hash_token` from `src/models/token.rs`: hash the UTF-8 bytes and
hex-encode the 32-byte result. -/
def hashToken (token : String) : String :=
  ⟨hexEncode ((String.toUTF8 token).toList.map UInt8.toNat)⟩

/-! ## JSON values (serde_json::Value payloads) -/

/-- A `serde_json::Value`, as far as the handlers construct or inspect one. -/
inductive Json where
  | null
  | bool (b : Bool)
  | num (n : Int)
  | str (s : String)
  | arr (xs : List Json)
  | obj (fields : List (String × Json))

/-- Field lookup in a JSON object (first match). -/
def Json.field : Json → String → Option Json
  | .obj fields, k => (fields.find? fun p => p.1 = k).map Prod.snd
  | _, _ => none

/-! ## UserHub wire messages (src/durable_objects/user_hub.rs, `WsMessage`) -/

/-- `WsMessage` from `src/durable_objects/user_hub.rs`. -/
inductive WsMessage where
  | register (client_id user_token : String) (metadata : ClientMetadata)
  | registered (success : Bool) (message : Option String)
  | statusUpdate (client_id : String) (status : ClientStatus)
  | ping (client_id : String)
  | pong (client_id : String)
  | getClients
  | clientList (clients : List Client)
  | clientUpdate (client : Client)
  | clientDisconnected (client_id : String)
  | error (message : String)
  | connectClient (client_id : String)
  | connectResponse (success : Bool) (client_id : String)
      (url : Option String) (message : Option String)
  | forwardToClient (client_id request_id action : String) (payload : Json)
  | userRequest (request_id action : String) (payload : Json)
  | responseChunk (request_id : String) (data : Json)
  | responseComplete (request_id : String) (data : Option Json)
  | forwardedResponse (client_id request_id : String) (data : Json) (complete : Bool)

/-- An observable effect of a handler: a frame sent on a socket, or a socket
closed with a code and reason.  Sockets are identified by naturals. -/
inductive Output where
  | send (ws : Nat) (msg : WsMessage)
  | close (ws : Nat) (code : Nat) (reason : String)

/-- `broadcast_to_browsers`: best-effort send of one frame to every browser
socket, in order. -/
def broadcastToBrowsers (browsers : List Nat) (msg : WsMessage) : List Output :=
  browsers.map fun b => .send b msg

/-! ## UserHub state -/

/-- `ClientConnection` from `user_hub.rs`: a live socket plus its record. -/
structure ClientConnection where
  websocket : Nat
  client : Client
deriving DecidableEq, Repr

/-- `PendingRequest` from `user_hub.rs`: one in-flight forwarded request. -/
structure PendingRequest where
  client_id : String
  browser_ws : Nat
deriving DecidableEq, Repr

/-- The UserHub's mutable state: the in-memory `clients` map, the browser
subscriber list, the durable SQLite `clients` table (`store`), and the
in-flight correlation map `pending_requests`.  Maps are association lists
keyed as in the source (`HashMap` keys are unique). -/
structure HubState where
  clients : List (String × ClientConnection)
  browsers : List Nat
  store : List Client
  pending_requests : List (String × PendingRequest)
deriving DecidableEq

/-- `HashMap::insert`: replace the entry with the same key, else append. -/
def insertAssoc {α : Type} (k : String) (v : α) : List (String × α) → List (String × α)
  | [] => [(k, v)]
  | p :: ps => if p.1 = k then (k, v) :: ps else p :: insertAssoc k v ps

/-- `HashMap::get` on an association list. -/
def lookupAssoc {α : Type} (l : List (String × α)) (k : String) : Option α :=
  (l.find? fun p => p.1 = k).map Prod.snd

/-- `INSERT OR REPLACE INTO clients` (`save_client`): replace the row with the
same primary key, else append. -/
def saveClient (c : Client) : List Client → List Client
  | [] => [c]
  | d :: ds => if d.id = c.id then c :: ds else d :: saveClient c ds

/-- `DELETE FROM clients WHERE client_id = ?` (`delete_client`). -/
def deleteClient (client_id : String) (store : List Client) : List Client :=
  store.filter fun c => c.id ≠ client_id

/-- `clients.into_iter().find(|c| c.id == client_id)` over the loaded table. -/
def findStored (store : List Client) (client_id : String) : Option Client :=
  store.find? fun c => c.id = client_id

/-! ## UserHub handlers -/

/-- The `Register` arm of `UserHub::handle_message`: build the record with
`Client::new`, save it, reply `registered{success:true}`, broadcast a
`client_update`, and insert the in-memory connection. -/
def handleRegister (s : HubState) (ws : Nat) (client_id _user_token : String)
    (metadata : ClientMetadata) (user_id now : String) : HubState × List Output :=
  let client := Client.new client_id user_id metadata now
  let outs := .send ws (.registered true none)
      :: broadcastToBrowsers s.browsers (.clientUpdate client)
  ({ s with
      store := saveClient client s.store
      clients := insertAssoc client_id ⟨ws, client⟩ s.clients },
   outs)

/-- The `Ping` arm of `UserHub::handle_message`: when the client has a live
connection, touch `last_seen` in memory and persist it; always reply `pong`
on the originating socket. -/
def handlePing (s : HubState) (ws : Nat) (client_id now : String) :
    HubState × List Output :=
  match lookupAssoc s.clients client_id with
  | some conn =>
      let c := conn.client.updateLastSeen now
      ({ s with
          clients := insertAssoc client_id ⟨conn.websocket, c⟩ s.clients
          store := saveClient c s.store },
       [.send ws (.pong client_id)])
  | none => (s, [.send ws (.pong client_id)])

/-- The stale-record scan in the `GetClients` arm (and `get_clients_json`):
walk the rows loaded from SQLite, skip those with a live in-memory
connection, promote any other non-`disconnected` row with `update_status`
and `save_client`, and collect the stale rows for the reply. -/
def scanStale (now : String) (active : List String) :
    List Client → List Client → List Client × List Client
  | store, [] => (store, [])
  | store, c :: rest =>
      if active.contains c.id then scanStale now active store rest
      else if c.metadata.status = .disconnected then
        ((scanStale now active store rest).1,
         c :: (scanStale now active store rest).2)
      else
        ((scanStale now active (saveClient (c.updateStatus .disconnected now) store) rest).1,
         c.updateStatus .disconnected now
           :: (scanStale now active (saveClient (c.updateStatus .disconnected now) store) rest).2)

/-- The `GetClients` arm of `UserHub::handle_message`: add the requester to
the browser set, list in-memory clients, run the stale-record scan over the
stored rows, and reply with a single `client_list` frame. -/
def handleGetClients (s : HubState) (ws : Nat) (now : String) :
    HubState × List Output :=
  let browsers' := if s.browsers.contains ws then s.browsers else s.browsers ++ [ws]
  let activeIds := s.clients.map Prod.fst
  let memClients := s.clients.map fun p => p.2.client
  let (store', stale) := scanStale now activeIds s.store s.store
  ({ s with browsers := browsers', store := store' },
   [.send ws (.clientList (memClients ++ stale))])

/-- The JSON body sent with the terminal `forwarded_response` when the record
exists but the socket is gone. -/
def offlineData : Json :=
  .obj [("error", .bool true),
        ("message", .str "Client is offline (connection lost after hibernation)")]

/-- The JSON body sent with the terminal `forwarded_response` when the client
is not found at all. -/
def notFoundData : Json :=
  .obj [("error", .bool true), ("message", .str "Client not found")]

/-- The `ForwardToClient` arm of `UserHub::handle_message`: with a live client
socket, record the in-flight request and forward a `user_request`; otherwise
promote any stored record to `disconnected` (broadcasting the update) and
answer the browser with a terminal error `forwarded_response`. -/
def handleForwardToClient (s : HubState) (ws : Nat)
    (client_id request_id action : String) (payload : Json) (now : String) :
    HubState × List Output :=
  match lookupAssoc s.clients client_id with
  | some conn =>
      ({ s with
          pending_requests :=
            insertAssoc request_id ⟨client_id, ws⟩ s.pending_requests },
       [.send conn.websocket (.userRequest request_id action payload)])
  | none =>
      match findStored s.store client_id with
      | some c =>
          let c' := c.updateStatus .disconnected now
          ({ s with store := saveClient c' s.store },
           broadcastToBrowsers s.browsers (.clientUpdate c')
             ++ [.send ws (.forwardedResponse client_id request_id offlineData true)])
      | none =>
          (s, [.send ws (.forwardedResponse client_id request_id notFoundData true)])

/-- The `ResponseComplete` arm of `UserHub::handle_message`: remove the
in-flight entry and send the terminal `forwarded_response` to its browser. -/
def handleResponseComplete (s : HubState) (request_id : String) (data : Option Json) :
    HubState × List Output :=
  match lookupAssoc s.pending_requests request_id with
  | some req =>
      ({ s with
          pending_requests := s.pending_requests.filter fun p => p.1 ≠ request_id },
       [.send req.browser_ws
          (.forwardedResponse req.client_id request_id
            (data.getD (.obj [("complete", .bool true)])) true)])
  | none => (s, [])

/-- `UserHub::handle_close` (also run on socket error): drop the socket from
the browser list; when a client connection owned the socket, remove it from
memory, delete its row from SQLite, and broadcast `client_disconnected`.
The `pending_requests` map is not touched. -/
def handleClose (s : HubState) (ws : Nat) : HubState × List Output :=
  let browsers' := s.browsers.filter fun b => b ≠ ws
  match s.clients.find? fun p => p.2.websocket = ws with
  | some (cid, _) =>
      ({ s with
          browsers := browsers'
          clients := s.clients.filter fun p => p.1 ≠ cid
          store := deleteClient cid s.store },
       broadcastToBrowsers browsers' (.clientDisconnected cid))
  | none => ({ s with browsers := browsers' }, [])

/-! ## HTTP proxy (UserHub::handle_proxy) -/

/-- `ProxyRequest` from `user_hub.rs` / `handlers/proxy.rs`. -/
structure ProxyRequest where
  method : String
  path : String
  headers : List (String × String)
  body : Option String
  query : Option String

/-- `ProxyResponse` from `user_hub.rs` / `handlers/proxy.rs`. -/
structure ProxyResponse where
  status : Nat
  headers : List (String × String)
  body : String
deriving DecidableEq, Repr

/-- The response of the outbound `Fetch` to the callback URL. -/
structure FetchResult where
  status : Nat
  headers : List (String × String)
  body : String

/-- `callback_url.trim_end_matches('/')`. -/
def trimEndSlashes (url : String) : String :=
  ⟨(url.toList.reverse.dropWhile fun c => c = '/').reverse⟩

/-- The callback-URL lookup at the head of `UserHub::handle_proxy`: prefer the
in-memory connection's record, else the row loaded from SQLite. -/
def lookupCallback (s : HubState) (client_id : String) : Option String :=
  match lookupAssoc s.clients client_id with
  | some conn => conn.client.metadata.callback_url
  | none => (findStored s.store client_id).bind fun c => c.metadata.callback_url

/-- Target-URL construction in `UserHub::handle_proxy`. -/
def targetUrl (callback_url : String) (preq : ProxyRequest) : String :=
  match preq.query with
  | some q => trimEndSlashes callback_url ++ preq.path ++ "?" ++ q
  | none => trimEndSlashes callback_url ++ preq.path

/-- `UserHub::handle_proxy`: resolve the callback URL (503 when there is
none — including when no record exists at all), issue the outbound fetch
(502 with an error body when it fails), else pass the fetched status,
headers, and body through.  The outbound fetch is the oracle `fetch`,
keyed by the target URL. -/
def handleProxy (s : HubState) (client_id : String) (preq : ProxyRequest)
    (fetch : String → Except String FetchResult) : ProxyResponse :=
  match lookupCallback s client_id with
  | none =>
      { status := 503
        headers := [("Content-Type", "application/json")]
        body := "\x7b\"error\": \"Client does not have a callback URL configured. Set ORCHESTRATOR_CALLBACK_URL in claudecodeui.\"\x7d" }
  | some url =>
      match fetch (targetUrl url preq) with
      | .error e =>
          { status := 502
            headers := [("Content-Type", "application/json")]
            body := "\x7b\"error\": \"Failed to connect to claudecodeui: " ++ e ++ "\"\x7d" }
      | .ok r => { status := r.status, headers := r.headers, body := r.body }

/-! ## Hibernation recovery (UserHub::restore_state) -/

/-- A live socket as the hibernation API reports it: its identity plus the
tags attached at accept time. -/
structure TaggedSocket where
  ws : Nat
  tags : List String

/-- The socket-matching loop of `restore_state`: a `"browser"` tag joins the
browser list; otherwise the first tag is looked up among the stored records
and, on a hit, the connection is rehydrated. -/
def restoreLoop (store : List (String × Client)) :
    List TaggedSocket →
    List (String × ClientConnection) × List Nat →
    List (String × ClientConnection) × List Nat
  | [], acc => acc
  | sock :: rest, (clients, browsers) =>
      if sock.tags.contains "browser" then
        restoreLoop store rest (clients, browsers ++ [sock.ws])
      else
        match sock.tags.head? with
        | some tag =>
            match lookupAssoc store tag with
            | some client =>
                restoreLoop store rest
                  (insertAssoc tag ⟨sock.ws, client⟩ clients, browsers)
            | none => restoreLoop store rest (clients, browsers)
        | none => restoreLoop store rest (clients, browsers)

/-- `UserHub::restore_state`: rebuild the in-memory maps from the live tagged
sockets and the stored rows.  It writes nothing back to SQLite and sends no
frames, so the durable table passes through unchanged and the output list is
empty. -/
def restoreState (websockets : List TaggedSocket) (store : List Client) :
    HubState × List Output :=
  let client_map := store.map fun c => (c.id, c)
  let cb := restoreLoop client_map websockets ([], [])
  ({ clients := cb.1, browsers := cb.2, store := store,
     pending_requests := [] }, [])

/-! ## PendingHub (src/durable_objects/pending_hub.rs) -/

/-- `PendingClient` from `pending_hub.rs`. -/
structure PendingClient where
  websocket : Nat
  pending_id : String
  hostname : String
  project : String
  platform : String
  ip_address : Option String
  country : Option String
  city : Option String
  region : Option String
  connected_at : Int
  allowed_users : List String
  allowed_orgs : List String
  allowed_teams : List String
deriving DecidableEq, Repr

/-- `PendingWsMessage` from `pending_hub.rs`. -/
inductive PendingWsMessage where
  | pendingRegister (pending_id hostname project platform : String)
  | pendingRegistered (success : Bool) (message : Option String)
  | ping (pending_id : String)
  | pong (pending_id : String)
  | tokenGranted (token client_id : String)
  | authorizationDenied (reason : String)
  | authorizationTimeout (message : String)
  | error (message : String)
deriving DecidableEq, Repr

/-- An observable effect of a PendingHub handler. -/
inductive POutput where
  | send (ws : Nat) (msg : PendingWsMessage)
  | close (ws : Nat) (code : Nat) (reason : String)
deriving DecidableEq, Repr

/-- The PendingHub's state: the parked clients keyed by `pending_id`, and the
`alarm_set` flag. -/
structure PendingState where
  clients : List (String × PendingClient)
  alarm_set : Bool
deriving DecidableEq, Repr

/-- `PENDING_TIMEOUT_MS = 10 * 60 * 1000`. -/
def PENDING_TIMEOUT_MS : Int := 10 * 60 * 1000

/-- `PendingHub::cleanup_expired`: collect the clients whose `connected_at`
lies strictly before `now - PENDING_TIMEOUT_MS`, remove each, send it an
`authorization_timeout` frame, and close its socket with code 4000. -/
def cleanupExpired (s : PendingState) (now : Int) : PendingState × List POutput :=
  let threshold := now - PENDING_TIMEOUT_MS
  let expired := s.clients.filter fun p => p.2.connected_at < threshold
  ({ s with clients := s.clients.filter fun p => ¬ p.2.connected_at < threshold },
   expired.flatMap fun p =>
     [.send p.2.websocket
        (.authorizationTimeout "Authorization timed out after 10 minutes. Please try again."),
      .close p.2.websocket 4000 "Authorization timeout"])

/-- `Storage::set_alarm` called with a `Duration` schedules the alarm at
`now + duration` (the worker runtime's `ScheduledTime` conversion treats a
`Duration` as an offset from the current time). -/
def alarmFireTime (now delayMs : Int) : Int := now + delayMs

/-- `PendingHub::schedule_cleanup_alarm`: when no alarm is set, mark it set
and request an alarm, passing `Duration::from_millis(current_timestamp_ms()
+ PENDING_TIMEOUT_MS)` — the returned value is that requested duration
(`none` when an alarm was already set and nothing is requested). -/
def scheduleCleanupAlarm (s : PendingState) (now : Int) : PendingState × Option Int :=
  if s.alarm_set then (s, none)
  else ({ s with alarm_set := true }, some (now + PENDING_TIMEOUT_MS))

/-- `PendingHub::alarm`: run the cleanup, clear `alarm_set`, and reschedule
when clients remain.  The third component is the requested alarm duration,
when one was requested. -/
def pendingAlarm (s : PendingState) (now : Int) :
    PendingState × List POutput × Option Int :=
  let (s1, outs) := cleanupExpired s now
  let s2 := { s1 with alarm_set := false }
  if s2.clients.isEmpty then (s2, outs, none)
  else
    let (s3, delay) := scheduleCleanupAlarm s2 now
    (s3, outs, delay)

/-- A row of the D1 `client_tokens` table, as inserted by `handle_claim`. -/
structure TokenRow where
  id : String
  user_id : String
  name : String
  token_hash : String
deriving DecidableEq, Repr

/-- The result `handle_claim` reports to the caller. -/
inductive ClaimResult where
  | notFound
  | dbError
  | success (client_id token_id : String)
deriving DecidableEq, Repr

/-- `PendingHub::handle_claim`: remove the pending client (404 when absent),
mint the token (`token_id`, `raw_token`, and the fresh `client_id` stand for
the `getrandom` outputs; the stored hash is `hash_token(raw_token)`), insert
the row into D1, send `token_granted{token, client_id}` on the pending
socket, and answer `{success, client_id, token_id}`.  The D1 insert happens
after the removal; when it fails (`dbOk = false`) the error propagates with
the client already removed and nothing sent. -/
def handleClaim (s : PendingState) (pending_id : String)
    (body_user_id body_name : String) (token_id raw_token new_client_id : String)
    (dbOk : Bool) (db : List TokenRow) :
    PendingState × List TokenRow × List POutput × ClaimResult :=
  match lookupAssoc s.clients pending_id with
  | none => (s, db, [], .notFound)
  | some c =>
      let s1 := { s with clients := s.clients.filter fun p => p.1 ≠ pending_id }
      let token_hash := hashToken raw_token
      let full_token := "ao_" ++ token_id ++ "_" ++ raw_token
      if dbOk then
        (s1, db ++ [⟨token_id, body_user_id, body_name, token_hash⟩],
         [.send c.websocket (.tokenGranted full_token new_client_id)],
         .success new_client_id token_id)
      else (s1, db, [], .dbError)

end Duratii

namespace Duratii

/-- The 16 hex digits never include an underscore. -/
theorem hexDigit_ne_underscore (n : Nat) (h : n < 16) : hexDigit n ≠ '_' := by
  unfold hexDigit
  interval_cases n <;> decide

/-- The hex encoding of any byte list contains no underscore. -/
theorem hexEncode_no_underscore (bytes : List Nat) : '_' ∉ hexEncode bytes := by
  intro hmem
  unfold hexEncode at hmem
  rw [List.mem_flatMap] at hmem
  obtain ⟨b, -, hb⟩ := hmem
  have h1 : b % 256 / 16 < 16 := by
    have : b % 256 < 256 := Nat.mod_lt _ (by norm_num)
    omega
  have h2 : b % 256 % 16 < 16 := Nat.mod_lt _ (by norm_num)
  simp only [List.mem_cons, List.mem_singleton, List.not_mem_nil, or_false] at hb
  rcases hb with hb | hb
  · exact hexDigit_ne_underscore _ h1 hb.symm
  · exact hexDigit_ne_underscore _ h2 hb.symm

/-- Splitting at the first underscore after a prefix that contains none
recovers the prefix and the suffix. -/
theorem splitFirstUnderscore_append (id secret : List Char) (h : '_' ∉ id) :
    splitFirstUnderscore (id ++ '_' :: secret) = some (id, secret) := by
  induction id with
  | nil => simp [splitFirstUnderscore]
  | cons c cs ih =>
      have hc : c ≠ '_' := fun hc => h (hc ▸ List.mem_cons_self c cs)
      have hcs : '_' ∉ cs := fun hm => h (List.mem_cons_of_mem c hm)
      simp [splitFirstUnderscore, hc, ih hcs]

/-- Each byte hex-encodes to two characters. -/
theorem hexEncode_length (bytes : List Nat) :
    (hexEncode bytes).length = 2 * bytes.length := by
  induction bytes with
  | nil => rfl
  | cons b bs ih =>
      simp only [hexEncode, List.flatMap_cons] at ih ⊢
      simp [ih]
      ring

/-! ## Sample states used by concrete counterexamples and witnesses -/

/-- Metadata of a registered sample client (no status in the frame → idle). -/
def sampleIdleMeta : ClientMetadata :=
  { hostname := "mbp", project := "/tmp/x", status := .idle,
    last_activity := none, callback_url := none }

/-- A sample client record `c1` owned by user `u1`. -/
def sampleIdleClient : Client :=
  { id := "c1", user_id := "u1", metadata := sampleIdleMeta,
    connected_at := "t0", last_seen := "t0" }

/-- A second, `active` record `c2` with no live socket. -/
def sampleStaleClient : Client :=
  { id := "c2", user_id := "u1",
    metadata := { hostname := "host2", project := "/p", status := .active,
                  last_activity := none, callback_url := none },
    connected_at := "t0", last_seen := "t0" }

/-- A record whose metadata carries a callback URL. -/
def sampleCbClient : Client :=
  { id := "c1", user_id := "u1",
    metadata := { hostname := "mbp", project := "/tmp/x", status := .idle,
                  last_activity := none,
                  callback_url := some "http://localhost:3010/" },
    connected_at := "t0", last_seen := "t0" }

/-- Hub with no state at all. -/
def emptyHub : HubState := ⟨[], [], [], []⟩

/-- Hub with client `c1` live on socket 3, one browser on socket 5, the
record persisted, and one in-flight request `r1` from browser 5 to `c1`. -/
def sampleHub : HubState :=
  ⟨[("c1", ⟨3, sampleIdleClient⟩)], [5], [sampleIdleClient], [("r1", ⟨"c1", 5⟩)]⟩

/-- Hub just woken: no live sockets, two durable records, one of them stale
and non-disconnected. -/
def sampleHub2 : HubState := ⟨[], [], [sampleIdleClient, sampleStaleClient], []⟩

/-- Hub with a browser on socket 5 and a persisted record for `c1` but no
live client socket. -/
def sampleHub3 : HubState := ⟨[], [5], [sampleIdleClient], []⟩

/-- Hub where `c1` is live on socket 3 and has a callback URL. -/
def sampleHub4 : HubState := ⟨[("c1", ⟨3, sampleCbClient⟩)], [], [sampleCbClient], []⟩

/-- A parked pending client `p1` on socket 7, connected at t=0. -/
def samplePending : PendingClient :=
  { websocket := 7, pending_id := "p1", hostname := "mbp", project := "/tmp/x",
    platform := "darwin", ip_address := none, country := none, city := none,
    region := none, connected_at := 0, allowed_users := ["alice"],
    allowed_orgs := [], allowed_teams := [] }

/-- PendingHub holding `p1`, with the cleanup alarm set. -/
def samplePendingHub : PendingState := ⟨[("p1", samplePending)], true⟩

/-! ## Helper lemmas -/

/-- `update_status` does not change the record's primary key. -/
theorem updateStatus_id (c : Client) (st : ClientStatus) (now : String) :
    (c.updateStatus st now).id = c.id := rfl

/-- `save_client` of a row keyed like `c` into a table where the prefix
misses that key replaces exactly the matching row. -/
theorem saveClient_append (c' c : Client) (pre post : List Client)
    (hid : c'.id = c.id) (hpre : c.id ∉ pre.map Client.id) :
    saveClient c' (pre ++ c :: post) = pre ++ c' :: post := by
  induction pre with
  | nil => simp [saveClient, hid]
  | cons d ds ih =>
      simp only [List.map_cons, List.mem_cons, not_or] at hpre
      have hd : d.id ≠ c'.id := by
        rw [hid]
        exact fun h => hpre.1 h.symm
      simpa [saveClient, hd] using ih hpre.2

/-- A deleted row can no longer be found. -/
theorem findStored_deleteClient (store : List Client) (cid : String) :
    findStored (deleteClient cid store) cid = none := by
  simp only [findStored, deleteClient]
  rw [List.find?_eq_none]
  intro c hc
  have := (List.mem_filter.mp hc).2
  simpa using this

/-- The stale-record scan rewrites the durable table pointwise: rows with a
live connection or already `disconnected` stay, every other row is promoted,
provided the primary keys are unique. -/
theorem scanStale_store_eq (now : String) (active : List String)
    (post : List Client) :
    ∀ pre : List Client, ((pre ++ post).map Client.id).Nodup →
      (scanStale now active (pre ++ post) post).1
        = pre ++ post.map fun c =>
            if active.contains c.id ∨ c.metadata.status = .disconnected then c
            else c.updateStatus .disconnected now := by
  induction post with
  | nil => intro pre _; simp [scanStale]
  | cons c rest ih =>
      intro pre h
      have hassoc : (pre ++ [c]) ++ rest = pre ++ c :: rest := by
        simp
      by_cases hact : active.contains c.id
      · have h' : (((pre ++ [c]) ++ rest).map Client.id).Nodup := by
          rw [hassoc]; exact h
        have := ih (pre ++ [c]) h'
        rw [hassoc] at this
        have hmem : c.id ∈ active := by simpa using hact
        simp only [scanStale, if_pos hact, this, List.map_cons]
        simp [hmem]
      · by_cases hdis : c.metadata.status = .disconnected
        · have h' : (((pre ++ [c]) ++ rest).map Client.id).Nodup := by
            rw [hassoc]; exact h
          have := ih (pre ++ [c]) h'
          rw [hassoc] at this
          simp only [scanStale, if_neg hact, if_pos hdis, this, List.map_cons]
          simp [hdis]
        · have hpre : c.id ∉ pre.map Client.id := by
            rw [List.map_append, List.map_cons] at h
            have hdisj := (List.nodup_append.mp h).2.2
            intro hmem
            exact hdisj hmem (List.mem_cons_self _ _)
          have hsave :
              saveClient (c.updateStatus .disconnected now) (pre ++ c :: rest)
                = pre ++ c.updateStatus .disconnected now :: rest :=
            saveClient_append _ _ _ _ (updateStatus_id c _ now) hpre
          have hassoc' :
              (pre ++ [c.updateStatus .disconnected now]) ++ rest
                = pre ++ c.updateStatus .disconnected now :: rest := by
            simp
          have h' :
              (((pre ++ [c.updateStatus .disconnected now]) ++ rest).map Client.id).Nodup := by
            rw [hassoc']
            have : (pre ++ c.updateStatus .disconnected now :: rest).map Client.id
                = (pre ++ c :: rest).map Client.id := by
              simp [updateStatus_id]
            rw [this]; exact h
          have := ih (pre ++ [c.updateStatus .disconnected now]) h'
          rw [hassoc'] at this
          have hmem : c.id ∉ active := by simpa using hact
          simp only [scanStale, if_neg hact, if_neg hdis, hsave, this, List.map_cons]
          simp [hmem, hdis]

/-- Metadata whose register frame carries `status: busy`. -/
def busyMeta : ClientMetadata :=
  { hostname := "mbp", project := "/tmp/x", status := .busy,
    last_activity := none, callback_url := none }

/-- A minimal proxy request envelope. -/
def sampleProxyReq : ProxyRequest :=
  { method := "GET", path := "/foo", headers := [], body := none, query := none }

/-! ## Claims -/

/-- C1: `UserHub::handle_close` never touches the in-flight correlation map:
for every hub state and every closing socket — the browser end or the client
end of a forwarded request alike — `pending_requests` is unchanged, so an
`InFlightRequest` survives the disconnection of either endpoint (entries
leave the map only through the `ResponseComplete` arm). -/
theorem C1_close_leaves_inflight (s : HubState) (ws : Nat) :
    (handleClose s ws).1.pending_requests = s.pending_requests := by
  simp only [handleClose]
  split <;> rfl

/-- C2 counterexample: a hub that wakes with zero live sockets and one
non-`disconnected` durable record.  `restore_state` leaves the record
untouched (still `idle`) and emits no frame at all, while the claim demands
the record be promoted to `disconnected` with exactly one `client_update`
broadcast. -/
theorem C2_counterexample :
    (restoreState [] [sampleIdleClient]).1.store = [sampleIdleClient] ∧
    sampleIdleClient.metadata.status ≠ .disconnected ∧
    (restoreState [] [sampleIdleClient]).2 = [] :=
  ⟨by decide, by decide, rfl⟩

/-- C2 amended: wake-up reconciliation (`restore_state`) only rehydrates
in-memory sessions — the durable table passes through unchanged and no
frame is emitted; records without a live connection are promoted to
`disconnected` lazily, when the client list is next requested, and that
promotion saves the record but emits no `client_update` broadcast (the only
frame sent by the `GetClients` arm is the `client_list` reply). -/
theorem C2_reconciliation (websockets : List TaggedSocket) (store : List Client)
    (s : HubState) (ws : Nat) (now : String) :
    (restoreState websockets store).1.store = store ∧
    (restoreState websockets store).2 = [] ∧
    ((s.store.map Client.id).Nodup →
      (handleGetClients s ws now).1.store
        = s.store.map (fun c =>
            if (s.clients.map Prod.fst).contains c.id
                ∨ c.metadata.status = .disconnected
            then c else c.updateStatus .disconnected now) ∧
      ∃ cs, (handleGetClients s ws now).2 = [.send ws (.clientList cs)]) := by
  refine ⟨rfl, rfl, fun h => ⟨?_, ⟨_, rfl⟩⟩⟩
  have := scanStale_store_eq now (s.clients.map Prod.fst) s.store [] (by simpa using h)
  simpa [handleGetClients] using this

/-- C2 witness: lazy promotion evaluated on the woken hub `sampleHub2`
(no live sockets; records `c1` idle and `c2` active). -/
theorem C2_reconciliation_witness :
    (handleGetClients sampleHub2 9 "t1").1.store
      = sampleHub2.store.map (fun c =>
          if (sampleHub2.clients.map Prod.fst).contains c.id
              ∨ c.metadata.status = .disconnected
          then c else c.updateStatus .disconnected "t1") ∧
    ∃ cs, (handleGetClients sampleHub2 9 "t1").2 = [.send 9 (.clientList cs)] :=
  (C2_reconciliation [] [] sampleHub2 9 "t1").2.2 (by decide)

/-- C3 counterexample: on the hub where client `c1` owns socket 3, the close
of socket 3 leaves NO record for `c1` in the durable store — the claim that
the store still contains the record with status `disconnected` fails. -/
theorem C3_counterexample :
    findStored (handleClose sampleHub 3).1.store "c1" = none ∧
    (handleClose sampleHub 3).1.store = [] := by decide

/-- C3 amended: when a socket owning the client `cid` closes (or errors) the
Hub removes the in-memory session, DELETES the durable record — it is not
retained as `disconnected` — and broadcasts `client_disconnected` to the
remaining browsers. -/
theorem C3_close_deletes_record (s : HubState) (ws : Nat) (cid : String)
    (conn : ClientConnection)
    (h : (s.clients.find? fun p => p.2.websocket = ws) = some (cid, conn)) :
    (handleClose s ws).1.store = deleteClient cid s.store ∧
    findStored (handleClose s ws).1.store cid = none ∧
    (handleClose s ws).1.clients = s.clients.filter (fun p => p.1 ≠ cid) ∧
    (handleClose s ws).2 =
      broadcastToBrowsers (s.browsers.filter fun b => b ≠ ws)
        (.clientDisconnected cid) := by
  unfold handleClose
  rw [h]
  exact ⟨rfl, findStored_deleteClient _ _, rfl, rfl⟩

/-- C3 witness: the amended close behavior evaluated on the concrete hub
where client `c1` owns socket 3 and a browser sits on socket 5. -/
theorem C3_close_deletes_record_witness :
    (handleClose sampleHub 3).1.store = deleteClient "c1" sampleHub.store ∧
    findStored (handleClose sampleHub 3).1.store "c1" = none ∧
    (handleClose sampleHub 3).1.clients
      = sampleHub.clients.filter (fun p => p.1 ≠ "c1") ∧
    (handleClose sampleHub 3).2 =
      broadcastToBrowsers (sampleHub.browsers.filter fun b => b ≠ 3)
        (.clientDisconnected "c1") :=
  C3_close_deletes_record sampleHub 3 "c1" ⟨3, sampleIdleClient⟩ (by decide)

/-- C4 counterexample: with no ClientRecord for `c1` anywhere, the claim
demands status 404, but `handle_proxy` answers 503 — the missing-record case
falls into the missing-callback-URL branch. -/
theorem C4_counterexample :
    (handleProxy emptyHub "c1" sampleProxyReq fun _ => .ok ⟨200, [], "ok"⟩).status
      = 503 ∧
    (handleProxy emptyHub "c1" sampleProxyReq fun _ => .ok ⟨200, [], "ok"⟩).status
      ≠ 404 := by decide

/-- C4 amended: `handle_proxy` answers 503 whenever no callback URL resolves
— both when the record lacks one and when no record exists at all (this path
produces no 404); 502 when the outbound fetch fails; otherwise it passes the
fetched status, headers, and body through unchanged. -/
theorem C4_proxy_statuses (s : HubState) (client_id : String)
    (preq : ProxyRequest) (fetch : String → Except String FetchResult) :
    (lookupCallback s client_id = none →
      (handleProxy s client_id preq fetch).status = 503) ∧
    (∀ url e, lookupCallback s client_id = some url →
      fetch (targetUrl url preq) = .error e →
      (handleProxy s client_id preq fetch).status = 502) ∧
    (∀ url r, lookupCallback s client_id = some url →
      fetch (targetUrl url preq) = .ok r →
      handleProxy s client_id preq fetch = ⟨r.status, r.headers, r.body⟩) := by
  refine ⟨fun h => ?_, fun url e h hf => ?_, fun url r h hf => ?_⟩
  · simp [handleProxy, h]
  · simp [handleProxy, h, hf]
  · simp [handleProxy, h, hf]

/-- C4 witness: the three proxy regimes evaluated concretely — no record →
503, callback with a failing fetch → 502, callback with a 200 fetch →
pass-through. -/
theorem C4_proxy_statuses_witness :
    (handleProxy emptyHub "c1" sampleProxyReq fun _ => .error "down").status = 503 ∧
    (handleProxy sampleHub4 "c1" sampleProxyReq fun _ => .error "down").status = 502 ∧
    handleProxy sampleHub4 "c1" sampleProxyReq
        (fun _ => .ok ⟨200, [("k", "v")], "hi"⟩)
      = ⟨200, [("k", "v")], "hi"⟩ :=
  ⟨(C4_proxy_statuses emptyHub "c1" sampleProxyReq fun _ => .error "down").1
      (by decide),
   (C4_proxy_statuses sampleHub4 "c1" sampleProxyReq fun _ => .error "down").2.1
      "http://localhost:3010/" "down" (by decide) rfl,
   (C4_proxy_statuses sampleHub4 "c1" sampleProxyReq
        fun _ => .ok ⟨200, [("k", "v")], "hi"⟩).2.2
      "http://localhost:3010/" ⟨200, [("k", "v")], "hi"⟩ (by decide) rfl⟩

/-- C5: the cleanup itself matches the claim — at alarm fire (t = 700000 ms)
the pending client connected at t = 0 is removed, sent
`authorization_timeout`, and closed with code 4000 — but the scheduling is
wrong: with no alarm set at t = 1,000,000 ms, `schedule_cleanup_alarm`
passes the ABSOLUTE timestamp t + 600000 as a relative `Duration`, so the
alarm fires at t + (t + 600000) = 2,600,000 ms and not 10 minutes after t
(1,600,000 ms). -/
theorem C5_alarm_schedule_bug :
    (cleanupExpired samplePendingHub 700000).1.clients = [] ∧
    (cleanupExpired samplePendingHub 700000).2 =
      [.send 7 (.authorizationTimeout
          "Authorization timed out after 10 minutes. Please try again."),
       .close 7 4000 "Authorization timeout"] ∧
    (scheduleCleanupAlarm ⟨[], false⟩ 1000000).2 = some 1600000 ∧
    alarmFireTime 1000000 1600000 = 2600000 ∧
    (2600000 : Int) ≠ 1000000 + 600000 := by decide

/-- C6 counterexample: claiming `p1` with a failing token-store write is not
all-or-nothing: the call reports the error and sends nothing, yet the
PendingClient has already been removed from the hub — the state changed. -/
theorem C6_counterexample :
    (handleClaim samplePendingHub "p1" "u1" "laptop" "tid" "raw" "cid" false []).2.2.2
      = .dbError ∧
    (handleClaim samplePendingHub "p1" "u1" "laptop" "tid" "raw" "cid" false []).2.2.1
      = [] ∧
    (handleClaim samplePendingHub "p1" "u1" "laptop" "tid" "raw" "cid" false []).1.clients
      = [] ∧
    samplePendingHub.clients ≠ [] := by decide

/-- C6 amended: `handle_claim` runs under actor exclusivity but is not
all-or-nothing across the token-store write: a missing `pending_id` yields
404 with nothing changed; on success the PendingClient is removed, the row
with the hashed token is inserted, `token_granted{token, client_id}` goes to
the pending socket, and `{success, client_id, token_id}` is returned; when
the token-store write fails the error is returned with the PendingClient
already removed (no rollback) and nothing sent or stored. -/
theorem C6_claim_behavior (s : PendingState)
    (pending_id buid bname tid raw ncid : String) (db : List TokenRow) :
    (lookupAssoc s.clients pending_id = none →
      ∀ dbOk, handleClaim s pending_id buid bname tid raw ncid dbOk db
        = (s, db, [], .notFound)) ∧
    (∀ c, lookupAssoc s.clients pending_id = some c →
      handleClaim s pending_id buid bname tid raw ncid true db
        = ({ s with clients := s.clients.filter fun p => p.1 ≠ pending_id },
           db ++ [⟨tid, buid, bname, hashToken raw⟩],
           [.send c.websocket (.tokenGranted ("ao_" ++ tid ++ "_" ++ raw) ncid)],
           .success ncid tid)) ∧
    (∀ c, lookupAssoc s.clients pending_id = some c →
      handleClaim s pending_id buid bname tid raw ncid false db
        = ({ s with clients := s.clients.filter fun p => p.1 ≠ pending_id },
           db, [], .dbError)) := by
  refine ⟨fun h dbOk => ?_, fun c h => ?_, fun c h => ?_⟩ <;> simp [handleClaim, h]

/-- C6 witness: the three claim regimes evaluated on the concrete pending
hub holding `p1` on socket 7. -/
theorem C6_claim_behavior_witness :
    handleClaim samplePendingHub "pX" "u1" "laptop" "tid" "raw" "cid" true []
      = (samplePendingHub, [], [], .notFound) ∧
    handleClaim samplePendingHub "p1" "u1" "laptop" "tid" "raw" "cid" true []
      = ({ samplePendingHub with
            clients := samplePendingHub.clients.filter fun p => p.1 ≠ "p1" },
         [⟨"tid", "u1", "laptop", hashToken "raw"⟩],
         [.send 7 (.tokenGranted ("ao_" ++ "tid" ++ "_" ++ "raw") "cid")],
         .success "cid" "tid") ∧
    handleClaim samplePendingHub "p1" "u1" "laptop" "tid" "raw" "cid" false []
      = ({ samplePendingHub with
            clients := samplePendingHub.clients.filter fun p => p.1 ≠ "p1" },
         [], [], .dbError) :=
  ⟨(C6_claim_behavior samplePendingHub "pX" "u1" "laptop" "tid" "raw" "cid" []).1
      (by decide) true,
   (C6_claim_behavior samplePendingHub "p1" "u1" "laptop" "tid" "raw" "cid" []).2.1
      samplePending (by decide),
   (C6_claim_behavior samplePendingHub "p1" "u1" "laptop" "tid" "raw" "cid" []).2.2
      samplePending (by decide)⟩

/-- C7: a `forward_to_client` naming a client with no live socket creates no
InFlightRequest and answers the browser with a terminal
`forwarded_response` whose data carries `error: true` and whose `complete`
flag is `true`; when a durable record exists it is promoted to
`disconnected`, the promoted record is saved, and a `client_update` with it
is broadcast to every attached browser. -/
theorem C7_forward_absent_client (s : HubState) (ws : Nat)
    (client_id request_id action : String) (payload : Json) (now : String)
    (h : lookupAssoc s.clients client_id = none) :
    (handleForwardToClient s ws client_id request_id action payload now).1.pending_requests
      = s.pending_requests ∧
    offlineData.field "error" = some (.bool true) ∧
    notFoundData.field "error" = some (.bool true) ∧
    (∀ c, findStored s.store client_id = some c →
      (c.updateStatus .disconnected now).metadata.status = .disconnected ∧
      (handleForwardToClient s ws client_id request_id action payload now).1.store
        = saveClient (c.updateStatus .disconnected now) s.store ∧
      (handleForwardToClient s ws client_id request_id action payload now).2
        = broadcastToBrowsers s.browsers
            (.clientUpdate (c.updateStatus .disconnected now))
            ++ [.send ws (.forwardedResponse client_id request_id offlineData true)]) ∧
    (findStored s.store client_id = none →
      handleForwardToClient s ws client_id request_id action payload now
        = (s, [.send ws (.forwardedResponse client_id request_id notFoundData true)])) := by
  refine ⟨?_, rfl, rfl, fun c hc => ⟨rfl, ?_, ?_⟩, fun hc => ?_⟩
  · simp only [handleForwardToClient, h]
    cases hfs : findStored s.store client_id <;> simp [hfs]
  · simp [handleForwardToClient, h, hc]
  · simp [handleForwardToClient, h, hc]
  · simp [handleForwardToClient, h, hc]

/-- C7 witness: forwarding `r2` to the persisted-but-offline client `c1` on
the hub with a single browser on socket 5. -/
theorem C7_forward_absent_client_witness :
    (handleForwardToClient sampleHub3 5 "c1" "r2" "run" .null "t1").1.pending_requests
      = sampleHub3.pending_requests ∧
    (sampleIdleClient.updateStatus .disconnected "t1").metadata.status = .disconnected ∧
    (handleForwardToClient sampleHub3 5 "c1" "r2" "run" .null "t1").1.store
      = saveClient (sampleIdleClient.updateStatus .disconnected "t1") sampleHub3.store ∧
    (handleForwardToClient sampleHub3 5 "c1" "r2" "run" .null "t1").2
      = broadcastToBrowsers sampleHub3.browsers
          (.clientUpdate (sampleIdleClient.updateStatus .disconnected "t1"))
          ++ [.send 5 (.forwardedResponse "c1" "r2" offlineData true)] := by
  have h := C7_forward_absent_client sampleHub3 5 "c1" "r2" "run" .null "t1" (by decide)
  have h2 := h.2.2.2.1 sampleIdleClient (by decide)
  exact ⟨h.1, h2.1, h2.2.1, h2.2.2⟩

/-- C8 counterexample: a register frame whose metadata carries
`status:"busy"` produces a record in state `busy`, not `idle`. -/
theorem C8_counterexample :
    ((findStored (handleRegister emptyHub 3 "c1" "tok" busyMeta "u1" "t0").1.store
        "c1").map fun c => c.metadata.status) = some .busy ∧
    some ClientStatus.busy ≠ some ClientStatus.idle := by decide

/-- C8 amended: registration stores the record with exactly the status
carried by the frame's metadata — which deserialization defaults to `idle`
when the frame omits the field — replies `registered{success:true}` to the
client, broadcasts `client_update` with that record to every attached
browser, and installs the in-memory session. -/
theorem C8_register_status (s : HubState) (ws : Nat)
    (client_id user_token uid now : String) (md : ClientMetadata)
    (hostname project : String) (la cb : Option String) :
    (Client.new client_id uid md now).metadata.status = md.status ∧
    (decodeMetadata hostname project none la cb).status = .idle ∧
    (handleRegister s ws client_id user_token md uid now).2
      = .send ws (.registered true none)
          :: broadcastToBrowsers s.browsers
              (.clientUpdate (Client.new client_id uid md now)) ∧
    (handleRegister s ws client_id user_token md uid now).1.store
      = saveClient (Client.new client_id uid md now) s.store ∧
    (handleRegister s ws client_id user_token md uid now).1.clients
      = insertAssoc client_id ⟨ws, Client.new client_id uid md now⟩ s.clients :=
  ⟨rfl, rfl, rfl, rfl, rfl⟩

/-- C9 counterexample: for id `a_b` and secret `c`, parsing the formatted
token splits at the FIRST underscore and yields `("a", "b_c")`, not the
original pair — the round trip fails for ids containing an underscore. -/
theorem C9_counterexample :
    parseToken (formatToken "a_b".toList "c".toList)
      = some ("a".toList, "b_c".toList) ∧
    parseToken (formatToken "a_b".toList "c".toList)
      ≠ some ("a_b".toList, "c".toList) := by decide

/-- C9 amended: `parse_token` inverts the `ao_<id>_<secret>` formatting for
every id free of underscores — in particular for every token minted by
`ClientToken::new`, whose id is the 16-character hex encoding of 8 random
bytes and whose secret is a hex string. -/
theorem C9_parse_format_roundtrip :
    (∀ id secret : List Char, '_' ∉ id →
      parseToken (formatToken id secret) = some (id, secret)) ∧
    (∀ idBytes secretBytes : List Nat,
      parseToken (formatToken (hexEncode idBytes) (hexEncode secretBytes))
        = some (hexEncode idBytes, hexEncode secretBytes)) ∧
    (∀ idBytes : List Nat, idBytes.length = 8 → (hexEncode idBytes).length = 16) := by
  have main : ∀ id secret : List Char, '_' ∉ id →
      parseToken (formatToken id secret) = some (id, secret) := by
    intro id secret h
    have hred : parseToken (formatToken id secret)
        = splitFirstUnderscore (id ++ '_' :: secret) := rfl
    rw [hred]
    exact splitFirstUnderscore_append id secret h
  refine ⟨main, fun ib sb => main _ _ (hexEncode_no_underscore ib), fun ib h => ?_⟩
  rw [hexEncode_length, h]

/-- C9 witness: the round trip evaluated on a concrete 16-hex id and a hex
secret, and the id length for 8 concrete bytes. -/
theorem C9_parse_format_roundtrip_witness :
    parseToken (formatToken "0123456789abcdef".toList "00ff".toList)
      = some ("0123456789abcdef".toList, "00ff".toList) ∧
    (hexEncode [0, 1, 2, 3, 4, 5, 6, 7]).length = 16 :=
  ⟨C9_parse_format_roundtrip.1 _ _ (by decide),
   C9_parse_format_roundtrip.2.2 _ (by decide)⟩

/-- C10: `ping{client_id}` always elicits `pong{client_id}` on the
originating socket — also when no record for `client_id` exists; when the
client has a live connection its `last_seen` is set to now both in memory
and in the durable store; an unknown `client_id` leaves the hub state fully
unchanged. -/
theorem C10_ping (s : HubState) (ws : Nat) (client_id now : String) :
    (handlePing s ws client_id now).2 = [.send ws (.pong client_id)] ∧
    (lookupAssoc s.clients client_id = none →
      (handlePing s ws client_id now).1 = s) ∧
    (∀ conn, lookupAssoc s.clients client_id = some conn →
      (handlePing s ws client_id now).1.clients
        = insertAssoc client_id ⟨conn.websocket, conn.client.updateLastSeen now⟩
            s.clients ∧
      (handlePing s ws client_id now).1.store
        = saveClient (conn.client.updateLastSeen now) s.store ∧
      (conn.client.updateLastSeen now).last_seen = now) := by
  refine ⟨?_, fun h => ?_, fun conn h => ?_⟩
  · simp only [handlePing]
    cases hl : lookupAssoc s.clients client_id <;> simp [hl]
  · simp [handlePing, h]
  · simp [handlePing, h, Client.updateLastSeen]

/-- C10 witness: ping for the unknown client `cX` on the empty hub (pong
still sent, state unchanged) and the persisted `last_seen` refresh for the
live client `c1`. -/
theorem C10_ping_witness :
    (handlePing emptyHub 4 "cX" "t1").2 = [.send 4 (.pong "cX")] ∧
    (handlePing emptyHub 4 "cX" "t1").1 = emptyHub ∧
    (handlePing sampleHub 3 "c1" "t1").1.store
      = saveClient (sampleIdleClient.updateLastSeen "t1") sampleHub.store := by
  refine ⟨(C10_ping emptyHub 4 "cX" "t1").1,
    (C10_ping emptyHub 4 "cX" "t1").2.1 (by decide), ?_⟩
  exact ((C10_ping sampleHub 3 "c1" "t1").2.2 ⟨3, sampleIdleClient⟩ (by decide)).2.1

end Duratii
